import Mathlib

/-!
Verification development for the kim Kafka-management tool.

This file gives a shallow embedding of the parts of the repository that the
specification's claims speak about:

- the consumer-session registry (package manager, MessageManager with
  StartConsumer, StopConsumer and the per-session consumeMessages pump, and
  the formatMessageValue helper with its JSON pretty-printer), and
- the interactive terminal controller (package ui, InteractiveMode with its
  scroll operations and search-mode key handling).

Go channels are modelled by natural-number identifiers allocated from a
monotone counter (a fresh make(chan ...) yields a fresh identifier), the
registry map by an association list, and the pump goroutine by a step
function over an explicit trace of select events.  Machine integers are
modelled as Int (the values involved are tiny; no overflow is reachable).
-/

namespace Kim

/-! ## Association-list model of the Go map -/

/-- Lookup in an association list, first binding wins (Go map lookup). -/
def lookupKey {α : Type} : List (String × α) → String → Option α
  | [], _ => none
  | (k, v) :: rest, key => if k = key then some v else lookupKey rest key

/-- Remove every binding of a key (Go map delete). -/
def eraseKey {α : Type} : List (String × α) → String → List (String × α)
  | [], _ => []
  | (k, v) :: rest, key =>
      if k = key then eraseKey rest key else (k, v) :: eraseKey rest key

/-- Insert-or-overwrite (Go map assignment to a key). -/
def setKey {α : Type} : List (String × α) → String → α → List (String × α)
  | [], key, v => [(key, v)]
  | (k, w) :: rest, key, v =>
      if k = key then (k, v) :: rest else (k, w) :: setKey rest key v

/-! ## Data model (pkg/types and sarama fields used by the manager) -/

/-- sarama offset constant OffsetNewest. -/
def OffsetNewest : Int := -1

/-- sarama offset constant OffsetOldest. -/
def OffsetOldest : Int := -2

/-- The fields of a sarama.ConsumerMessage read by consumeMessages. -/
structure RawMessage where
  Topic : String
  Partition : Int
  Offset : Int
  Timestamp : Nat
  Key : String
  Value : String
  Headers : List (String × String)
deriving DecidableEq, Repr

/-- types.Message as built by consumeMessages. -/
structure Message where
  Topic : String
  Partition : Int
  Offset : Int
  Timestamp : Nat
  Key : String
  Value : String
  Headers : List (String × String)
deriving DecidableEq, Repr

/-- types.ConsumeRequest fields used by StartConsumer. -/
structure ConsumeRequest where
  Topic : String
  GroupID : String
  Partition : Int
  FromBeginning : Bool
deriving DecidableEq, Repr

/-- ConsumerSession: channels and the partition-consumer handle are modelled
by the identifiers allocated when the session was created. -/
structure ConsumerSession where
  Consumer : Nat
  Topic : String
  Partition : Int
  GroupID : String
  Messages : Nat
  Errors : Nat
  Stop : Nat
  FromBeginning : Bool
deriving DecidableEq, Repr

/-- The MessageManager state: the consumers registry map, a monotone counter
supplying fresh channel identifiers, the list of session keys for which a
pump goroutine has been launched (most recent first), and the stop channels
that have been closed. -/
structure MMState where
  consumers : List (String × ConsumerSession)
  nextId : Nat
  pumps : List String
  closedStops : List Nat
deriving DecidableEq, Repr

/-- The broker client facade as seen by the manager: IsConnected and
ConsumePartition (returning a handle identifier or the cause of failure). -/
structure ClientEnv where
  connected : Bool
  consumePartition : String → Int → Int → Except String Nat

instance {ε α : Type} [DecidableEq ε] [DecidableEq α] : DecidableEq (Except ε α) := fun x y =>
  match x, y with
  | Except.error a, Except.error b =>
      if h : a = b then Decidable.isTrue (h ▸ rfl)
      else Decidable.isFalse (fun hh => h (by injection hh))
  | Except.error _, Except.ok _ => Decidable.isFalse (fun hh => Except.noConfusion hh)
  | Except.ok _, Except.error _ => Decidable.isFalse (fun hh => Except.noConfusion hh)
  | Except.ok a, Except.ok b =>
      if h : a = b then Decidable.isTrue (h ▸ rfl)
      else Decidable.isFalse (fun hh => h (by injection hh))

/-- Channel-id freshness invariant: every registered session's channel
identifiers were allocated below the current counter. -/
def MMState.WF (st : MMState) : Prop :=
  ∀ p ∈ st.consumers,
    p.2.Messages < st.nextId ∧ p.2.Errors < st.nextId ∧ p.2.Stop < st.nextId

instance (st : MMState) : Decidable st.WF := by
  unfold MMState.WF; infer_instance

namespace MessageManager

/-- sessionKey as computed by fmt.Sprintf with format %s-%s-%d. -/
def sessionKey (topic groupID : String) (partition : Int) : String :=
  topic ++ "-" ++ groupID ++ "-" ++ toString partition

/-- MessageManager.StartConsumer.  Returns the message/error channel pair or
the error, together with the state after the call.  A genuinely new session
allocates three fresh channel identifiers and launches one pump. -/
def StartConsumer (env : ClientEnv) (st : MMState) (req : ConsumeRequest) :
    Except String (Nat × Nat) × MMState :=
  if !env.connected then (Except.error "client not connected", st)
  else
    match lookupKey st.consumers (sessionKey req.Topic req.GroupID req.Partition) with
    | some session => (Except.ok (session.Messages, session.Errors), st)
    | none =>
      match env.consumePartition req.Topic req.Partition
          (if req.FromBeginning then OffsetOldest else OffsetNewest) with
      | Except.error e =>
          (Except.error ("failed to create partition consumer: " ++ e), st)
      | Except.ok handle =>
          let session : ConsumerSession :=
            ⟨handle, req.Topic, req.Partition, req.GroupID,
             st.nextId, st.nextId + 1, st.nextId + 2, req.FromBeginning⟩
          (Except.ok (session.Messages, session.Errors),
           { st with
             consumers := (sessionKey req.Topic req.GroupID req.Partition, session)
                            :: st.consumers,
             nextId := st.nextId + 3,
             pumps := sessionKey req.Topic req.GroupID req.Partition :: st.pumps })

/-- MessageManager.StopConsumer: close the session's stop channel and delete
its key from the registry; error if no session is registered for the key. -/
def StopConsumer (st : MMState) (topic groupID : String) (partition : Int) :
    Except String Unit × MMState :=
  match lookupKey st.consumers (sessionKey topic groupID partition) with
  | none => (Except.error "consumer not found", st)
  | some session =>
      (Except.ok (),
       { st with
         closedStops := session.Stop :: st.closedStops,
         consumers := eraseKey st.consumers (sessionKey topic groupID partition) })

end MessageManager

/-! ## JSON model (encoding/json as used by formatMessageValue)

Unmarshal into an untyped value followed by MarshalIndent with a two-space
indent.  Object keys are rendered in sorted order and duplicate keys
overwrite, matching the Go map semantics.

JSON numbers go through float64 exactly as in the Go library: Unmarshal
converts the decimal literal with ParseFloat, which per its documentation
returns the nearest binary64 value under IEEE 754 unbiased (round to
nearest, ties to even) rounding, reports a range error on overflow (which
makes Unmarshal fail) and silently returns zero on underflow; the encoder
prints a float with the documented shortest form, the smallest number of
digits from which ParseFloat recovers the value exactly, using fixed
notation for magnitudes in the interval from the float value of 1e-6 up
to but excluding 1e21 and exponent notation outside it, with the leading
zero of a one-digit negative exponent stripped.  All of this is computed
below in exact integer arithmetic: a binary64 value is a scaled dyadic
q times 2 to the k, and the rounding interval of a value is manipulated
through exact scaled comparisons. -/

/-- Count of decimal digits (fueled). -/
def natDigitsAux : Nat → Nat → Nat
  | 0, _ => 1
  | fuel + 1, m => if m < 10 then 1 else natDigitsAux fuel (m / 10) + 1

/-- Count of decimal digits of a positive number. -/
def natDigits (m : Nat) : Nat := natDigitsAux m m

/-- Floor of the base-two logarithm (fueled). -/
def natLog2Aux : Nat → Nat → Nat
  | 0, _ => 0
  | fuel + 1, m => if m < 2 then 0 else natLog2Aux fuel (m / 2) + 1

/-- Floor of the base-two logarithm of a positive number. -/
def natLog2 (m : Nat) : Nat := natLog2Aux m m

/-- Exact comparison of m1 times 2^b1 times 10^c1 with m2 times 2^b2
times 10^c2, as nonnegative rationals. -/
def scaleCmp (m1 : Nat) (b1 c1 : Int) (m2 : Nat) (b2 c2 : Int) : Ordering :=
  compare (m1 * 2 ^ (b1 - b2).toNat * 10 ^ (c1 - c2).toNat)
          (m2 * 2 ^ (b2 - b1).toNat * 10 ^ (c2 - c1).toNat)

/-- Round num/den to the nearest integer, ties to even. -/
def rdivEven (num den : Nat) : Nat :=
  let d := num / den
  let r := num % den
  if den < 2 * r then d + 1
  else if 2 * r < den then d
  else if d % 2 = 0 then d else d + 1

/-- A binary64 value as produced by ParseFloat: a signed zero, or a
finite nonzero value, sign times q times 2^k, with q in [1, 2^53):
subnormal when k = -1074 and q < 2^52, else normal with q in
[2^52, 2^53) and -1074 ≤ k ≤ 971. -/
inductive F64 where
  | zero (neg : Bool) : F64
  | fin (neg : Bool) (q : Nat) (k : Int) : F64
deriving DecidableEq, Repr

/-- Correct an estimate of the floor base-two logarithm of m times 10^e
by exact comparisons (the estimate is off by at most two). -/
def log2Adjust : Nat → Nat → Int → Int → Int
  | 0, _, _, L => L
  | fuel + 1, m, e, L =>
      if scaleCmp m 0 e 1 L 0 = Ordering.lt then log2Adjust fuel m e (L - 1)
      else if scaleCmp m 0 e 1 (L + 1) 0 = Ordering.lt then L
      else log2Adjust fuel m e (L + 1)

/-- ParseFloat on the decimal sign times m times 10^e: the nearest
binary64 value, round to nearest with ties to even; none models the
range error on overflow to infinity, and underflow returns a zero.  The
digit-count prefilters only dispatch unreachable magnitudes; every
borderline case goes through the exact rounding below. -/
def decToF64 (neg : Bool) (m : Nat) (e : Int) : Option F64 :=
  if m = 0 then some (F64.zero neg)
  else if 310 ≤ (natDigits m : Int) + e then none
  else if (natDigits m : Int) + e ≤ -324 then some (F64.zero neg)
  else
    let L0 : Int := (natLog2 m : Int) + (e * 217706).fdiv 65536
    let L := log2Adjust 8 m e L0
    let k0 : Int := L - 52
    let k : Int := if k0 < -1074 then -1074 else k0
    let q := rdivEven (m * 10 ^ e.toNat * 2 ^ (-k).toNat) (10 ^ (-e).toNat * 2 ^ k.toNat)
    if q = 0 then some (F64.zero neg)
    else if q < 2 ^ 53 then
      if 971 < k then none else some (F64.fin neg q k)
    else
      if 971 < k + 1 then none else some (F64.fin neg (2 ^ 52) (k + 1))

/-- Ceiling of a times 2^b divided by 10^s, with an exactness flag. -/
def ceilScaled (a : Nat) (b s : Int) : Int × Bool :=
  let num := a * 2 ^ b.toNat * 10 ^ (-s).toNat
  let den := 2 ^ (-b).toNat * 10 ^ s.toNat
  (((num + den - 1) / den : Nat), num % den = 0)

/-- Floor of a times 2^b divided by 10^s, with an exactness flag. -/
def floorScaled (a : Nat) (b s : Int) : Int × Bool :=
  let num := a * 2 ^ b.toNat * 10 ^ (-s).toNat
  let den := 2 ^ (-b).toNat * 10 ^ s.toNat
  ((num / den : Nat), num % den = 0)

/-- Nearest integer to q times 2^k divided by 10^s, ties to even. -/
def nearestScaled (q : Nat) (k s : Int) : Int :=
  (rdivEven (q * 2 ^ k.toNat * 10 ^ (-s).toNat) (2 ^ (-k).toNat * 10 ^ s.toNat) : Int)

/-- Find the largest scale s whose decimal grid meets the rounding
interval of the value (the decimals recovering the value exactly are
those inside it, endpoints included exactly when q is even), and on it
the grid point closest to the value: the documented shortest form.  The
scan starts above the decimal exponent and each step divides the scale
by ten, so the result has no trailing zero digits. -/
def searchShortest : Nat → Nat → Int → Bool → Nat → Int → Nat → Int → Int →
    Option (Nat × Int)
  | 0, _, _, _, _, _, _, _, _ => none
  | fuel + 1, q, k, inc, alo, blo, ahi, bhi, s =>
      let pLo := ceilScaled alo blo s
      let lo2 := if pLo.2 ∧ inc = false then pLo.1 + 1 else pLo.1
      let pHi := floorScaled ahi bhi s
      let hi2 := if pHi.2 ∧ inc = false then pHi.1 - 1 else pHi.1
      if lo2 ≤ hi2 then
        let c := nearestScaled q k s
        let D := max lo2 (min hi2 c)
        some (D.toNat, s)
      else
        searchShortest fuel q k inc alo blo ahi bhi (s - 1)

/-- Shortest decimal form D times 10^s of the positive binary64 value q
times 2^k.  The rounding interval reaches halfway to each neighbour; the
lower gap is half-sized when q is the smallest normal significand. -/
def shortestDec (q : Nat) (k : Int) : Nat × Int :=
  let alo := if q = 2 ^ 52 ∧ k ≠ -1074 then 4 * q - 1 else 2 * q - 1
  let blo := if q = 2 ^ 52 ∧ k ≠ -1074 then k - 2 else k - 1
  let L : Int := (natLog2 q : Int) + k
  let E0 : Int := (L * 30103).fdiv 100000
  match searchShortest 26 q k (q % 2 == 0) alo blo (2 * q + 1) (k - 1) (E0 + 3) with
  | some p => p
  | none => ((nearestScaled q k (E0 - 16)).toNat, E0 - 16)

/-- A run of zero digits. -/
def padZeros (n : Nat) : String := String.mk (List.replicate n '0')

/-- Fixed-notation rendering of D times 10^s from the digits of D. -/
def fmtFixed (ds : List Char) (s : Int) : String :=
  if 0 ≤ s then String.mk ds ++ padZeros s.toNat
  else if 0 < (ds.length : Int) + s then
    String.mk (ds.take ((ds.length : Int) + s).toNat) ++ "."
      ++ String.mk (ds.drop ((ds.length : Int) + s).toNat)
  else "0." ++ padZeros (-((ds.length : Int) + s)).toNat ++ String.mk ds

/-- Exponent-notation rendering from the digits and the decimal
exponent, with the encoder's exponent cleanup applied. -/
def fmtExp (ds : List Char) (dexp : Int) : String :=
  (match ds with
   | [] => "0"
   | c :: rest =>
      if rest = [] then String.singleton c
      else String.singleton c ++ "." ++ String.mk rest)
  ++ "e" ++ (if dexp < 0 then "-" ++ toString (-dexp).toNat else "+" ++ toString dexp.toNat)

/-- The encoder's rendering of a binary64 value: shortest digits, fixed
notation for magnitudes from the float 1e-6 up to but excluding 1e21,
exponent notation outside. -/
def numToString (f : F64) : String :=
  match f with
  | F64.zero neg => if neg then "-0" else "0"
  | F64.fin neg q k =>
      let p := shortestDec q k
      let ds := (Nat.repr p.1).data
      let dexp : Int := (ds.length : Int) - 1 + p.2
      let big : Bool := scaleCmp q k 0 1 0 21 != Ordering.lt
      let small : Bool :=
        match decToF64 false 1 (-6) with
        | some (F64.fin _ qe ke) => scaleCmp q k 0 qe ke 0 == Ordering.lt
        | _ => false
      let body := if big || small then fmtExp ds dexp else fmtFixed ds p.2
      if neg then "-" ++ body else body

/-- Untyped JSON values as produced by Unmarshal. -/
inductive Json where
  | null : Json
  | bool (b : Bool) : Json
  | num (f : F64) : Json
  | str (s : String) : Json
  | arr (elems : List Json) : Json
  | obj (fields : List (String × Json)) : Json

/-- The opening-brace character. -/
def lbraceChar : Char := Char.ofNat 123

/-- The closing-brace character. -/
def rbraceChar : Char := Char.ofNat 125

/-- JSON whitespace. -/
def isWsChar (c : Char) : Bool :=
  c = ' ' || c = '\t' || c = '\n' || c = '\r'

/-- Drop leading JSON whitespace. -/
def skipWs : List Char → List Char
  | [] => []
  | c :: rest => if isWsChar c then skipWs rest else c :: rest

/-- Value of a hexadecimal digit. -/
def hexVal (c : Char) : Option Nat :=
  if '0' ≤ c ∧ c ≤ '9' then some (c.toNat - 48)
  else if 'a' ≤ c ∧ c ≤ 'f' then some (c.toNat - 87)
  else if 'A' ≤ c ∧ c ≤ 'F' then some (c.toNat - 55)
  else none

/-- Parse the body of a JSON string after the opening quote; returns the
decoded string and the remaining input after the closing quote. -/
def parseStringBody : List Char → Option (String × List Char)
  | [] => none
  | c :: rest =>
    if c = '\"' then some ("", rest)
    else if c = '\\' then
      match rest with
      | [] => none
      | e :: rest2 =>
        if e = 'u' then
          match rest2 with
          | h1 :: h2 :: h3 :: h4 :: rest3 =>
            match hexVal h1, hexVal h2, hexVal h3, hexVal h4 with
            | some a, some b, some c2, some d =>
                (fun p => (String.singleton (Char.ofNat (((a * 16 + b) * 16 + c2) * 16 + d)) ++ p.1, p.2))
                  <$> parseStringBody rest3
            | _, _, _, _ => none
          | _ => none
        else
          match
            (if e = '\"' then some '\"'
             else if e = '\\' then some '\\'
             else if e = '/' then some '/'
             else if e = 'b' then some (Char.ofNat 8)
             else if e = 'f' then some (Char.ofNat 12)
             else if e = 'n' then some '\n'
             else if e = 'r' then some '\r'
             else if e = 't' then some '\t'
             else none) with
          | some d => (fun p => (String.singleton d ++ p.1, p.2)) <$> parseStringBody rest2
          | none => none
    else if c.toNat < 32 then none
    else (fun p => (String.singleton c ++ p.1, p.2)) <$> parseStringBody rest

/-- Decimal digit test. -/
def isDigitChar (c : Char) : Bool := '0' ≤ c && c ≤ '9'

/-- Split off leading decimal digits. -/
def takeDigits : List Char → List Char × List Char
  | [] => ([], [])
  | c :: rest =>
      if isDigitChar c then
        let p := takeDigits rest
        (c :: p.1, p.2)
      else ([], c :: rest)

/-- Digits to a natural number. -/
def digitsToNat (ds : List Char) : Nat :=
  ds.foldl (fun acc c => acc * 10 + (c.toNat - 48)) 0

/-- Parse a JSON number: optional minus, an integer part without a
superfluous leading zero, an optional fraction with at least one digit,
an optional exponent with at least one digit; the decimal is then
converted to binary64 by ParseFloat (failure on its range error). -/
def parseNumber (cs : List Char) : Option (Json × List Char) :=
  let signed := match cs with
    | c :: rest => if c = '-' then (true, rest) else (false, cs)
    | [] => (false, cs)
  let ip := takeDigits signed.2
  match ip.1 with
  | [] => none
  | d :: ds2 =>
    if d = '0' ∧ ds2 ≠ [] then none
    else
      let fr : Option (List Char × List Char) := match ip.2 with
        | c :: r2 =>
            if c = '.' then
              let fp := takeDigits r2
              if fp.1 = [] then none else some fp
            else some ([], ip.2)
        | [] => some ([], ip.2)
      match fr with
      | none => none
      | some (fd, r3) =>
        let ex : Option (Bool × List Char × List Char) := match r3 with
          | c :: r4 =>
              if c = 'e' ∨ c = 'E' then
                let sg := match r4 with
                  | c2 :: r5 =>
                      if c2 = '-' then (true, r5)
                      else if c2 = '+' then (false, r5)
                      else (false, r4)
                  | [] => (false, r4)
                let ep := takeDigits sg.2
                if ep.1 = [] then none else some (sg.1, ep.1, ep.2)
              else some (false, [], r3)
          | [] => some (false, [], r3)
        match ex with
        | none => none
        | some (es, ed, rest) =>
          let m := digitsToNat (ip.1 ++ fd)
          let e10 : Int :=
            (if es then -(digitsToNat ed : Int) else (digitsToNat ed : Int)) - fd.length
          match decToF64 signed.1 m e10 with
          | none => none
          | some f => some (Json.num f, rest)

/-- Parse a scalar JSON value (literal or number). -/
def parseScalar (cs : List Char) : Option (Json × List Char) :=
  match cs with
  | 'n' :: 'u' :: 'l' :: 'l' :: rest => some (Json.null, rest)
  | 't' :: 'r' :: 'u' :: 'e' :: rest => some (Json.bool true, rest)
  | 'f' :: 'a' :: 'l' :: 's' :: 'e' :: rest => some (Json.bool false, rest)
  | _ => parseNumber cs

mutual

/-- Parse one JSON value (fuel-indexed recursive-descent). -/
def parseVal : Nat → List Char → Option (Json × List Char)
  | 0, _ => none
  | fuel + 1, cs =>
    match skipWs cs with
    | [] => none
    | c :: rest =>
      if c = '\"' then (fun p => (Json.str p.1, p.2)) <$> parseStringBody rest
      else if c = lbraceChar then
        match skipWs rest with
        | d :: rest2 =>
            if d = rbraceChar then some (Json.obj [], rest2)
            else parseObjBody fuel (d :: rest2) []
        | [] => none
      else if c = '[' then
        match skipWs rest with
        | d :: rest2 =>
            if d = ']' then some (Json.arr [], rest2)
            else parseArrBody fuel (d :: rest2) []
        | [] => none
      else parseScalar (c :: rest)

/-- Parse one key-value pair and then the rest of an object body. -/
def parseObjBody : Nat → List Char → List (String × Json) → Option (Json × List Char)
  | 0, _, _ => none
  | fuel + 1, cs, acc =>
    match skipWs cs with
    | c :: rest =>
      if c = '\"' then
        match parseStringBody rest with
        | some (key, rest2) =>
          match skipWs rest2 with
          | d :: rest3 =>
            if d = ':' then
              match parseVal fuel rest3 with
              | some (v, rest4) =>
                match skipWs rest4 with
                | e :: rest5 =>
                    if e = ',' then parseObjBody fuel rest5 (setKey acc key v)
                    else if e = rbraceChar then some (Json.obj (setKey acc key v), rest5)
                    else none
                | [] => none
              | none => none
            else none
          | [] => none
        | none => none
      else none
    | [] => none

/-- Parse one element and then the rest of an array body. -/
def parseArrBody : Nat → List Char → List Json → Option (Json × List Char)
  | 0, _, _ => none
  | fuel + 1, cs, acc =>
    match parseVal fuel cs with
    | some (v, rest) =>
      match skipWs rest with
      | c :: rest2 =>
          if c = ',' then parseArrBody fuel rest2 (acc ++ [v])
          else if c = ']' then some (Json.arr (acc ++ [v]), rest2)
          else none
      | [] => none
    | none => none

end

/-- json.Unmarshal into an untyped value: a whole-input parse. -/
def jsonParse (s : String) : Option Json :=
  match parseVal (s.length + 1) s.data with
  | some (v, rest) => if skipWs rest = [] then some v else none
  | none => none

/-- Lower-case hexadecimal digit. -/
def hexDigit (n : Nat) : Char :=
  if n < 10 then Char.ofNat (48 + n) else Char.ofNat (87 + n)

/-- Escape one character the way the encoder does (HTML escaping on). -/
def escapeChar (c : Char) : String :=
  if c = '\"' then "\\\""
  else if c = '\\' then "\\\\"
  else if c = '\n' then "\\n"
  else if c = '\r' then "\\r"
  else if c = '\t' then "\\t"
  else if c = '<' then "\\u003c"
  else if c = '>' then "\\u003e"
  else if c = '&' then "\\u0026"
  else if c.toNat < 32 then
    "\\u00" ++ String.singleton (hexDigit (c.toNat / 16)) ++ String.singleton (hexDigit (c.toNat % 16))
  else if c.toNat = 8232 then "\\u2028"
  else if c.toNat = 8233 then "\\u2029"
  else String.singleton c

/-- Render a JSON string literal. -/
def quoteString (s : String) : String :=
  "\"" ++ String.join (s.data.map escapeChar) ++ "\""

/-- Insert a field into a key-sorted field list. -/
def fieldInsert (p : String × Json) : List (String × Json) → List (String × Json)
  | [] => [p]
  | q :: rest => if p.1 ≤ q.1 then p :: q :: rest else q :: fieldInsert p rest

/-- Sort object fields by key (the encoder renders map keys sorted). -/
def sortFields : List (String × Json) → List (String × Json)
  | [] => []
  | p :: rest => fieldInsert p (sortFields rest)

/-- Indentation for a nesting depth with the two-space indent unit. -/
def indentStr (depth : Nat) : String :=
  String.join (List.replicate depth "  ")

mutual

/-- Render a value at a nesting depth (fuel-indexed; the fuel models the
encoder's recursion and is always sufficient at the call site). -/
def marshalValue : Nat → Nat → Json → String
  | 0, _, _ => ""
  | fuel + 1, depth, v =>
    match v with
    | Json.null => "null"
    | Json.bool b => if b then "true" else "false"
    | Json.num f => numToString f
    | Json.str s => quoteString s
    | Json.arr [] => "[]"
    | Json.arr (x :: xs) =>
        "[\n" ++ marshalElems fuel (depth + 1) (x :: xs) ++ "\n" ++ indentStr depth ++ "]"
    | Json.obj [] => String.singleton lbraceChar ++ String.singleton rbraceChar
    | Json.obj (f :: fs) =>
        String.singleton lbraceChar ++ "\n"
          ++ marshalFields fuel (depth + 1) (sortFields (f :: fs))
          ++ "\n" ++ indentStr depth ++ String.singleton rbraceChar

/-- Render array elements, comma-and-newline separated. -/
def marshalElems : Nat → Nat → List Json → String
  | 0, _, _ => ""
  | _ + 1, _, [] => ""
  | fuel + 1, depth, [x] => indentStr depth ++ marshalValue fuel depth x
  | fuel + 1, depth, x :: y :: rest =>
      indentStr depth ++ marshalValue fuel depth x ++ ",\n"
        ++ marshalElems fuel depth (y :: rest)

/-- Render object fields, comma-and-newline separated. -/
def marshalFields : Nat → Nat → List (String × Json) → String
  | 0, _, _ => ""
  | _ + 1, _, [] => ""
  | fuel + 1, depth, [p] => indentStr depth ++ quoteString p.1 ++ ": " ++ marshalValue fuel depth p.2
  | fuel + 1, depth, p :: q :: rest =>
      indentStr depth ++ quoteString p.1 ++ ": " ++ marshalValue fuel depth p.2 ++ ",\n"
        ++ marshalFields fuel depth (q :: rest)

end

mutual

/-- Size of a JSON value, used as marshalling fuel. -/
def jsonSize : Json → Nat
  | Json.null => 1
  | Json.bool _ => 1
  | Json.num _ => 1
  | Json.str _ => 1
  | Json.arr xs => jsonSizeList xs + 1
  | Json.obj fs => jsonSizeFields fs + 1

/-- Size of a list of JSON values. -/
def jsonSizeList : List Json → Nat
  | [] => 0
  | x :: rest => jsonSize x + jsonSizeList rest + 1

/-- Size of a list of JSON fields. -/
def jsonSizeFields : List (String × Json) → Nat
  | [] => 0
  | p :: rest => jsonSize p.2 + jsonSizeFields rest + 1

end

/-- Fuel that dominates the recursion depth of a value. -/
def jsonFuel : Json → Nat := fun j => jsonSize j + 1

/-- json.MarshalIndent with empty line prefix and two-space indent. -/
def marshalIndent (j : Json) : String :=
  marshalValue (jsonFuel j) 0 j

namespace MessageManager

/-- MessageManager.formatMessageValue: empty stays empty, JSON values are
pretty-printed, everything else is returned as the raw string. -/
def formatMessageValue (value : String) : String :=
  if value.length = 0 then ""
  else
    match jsonParse value with
    | some j => marshalIndent j
    | none => value

/-- The header loop of consumeMessages: build the Go map in slice order. -/
def convertHeaders (hs : List (String × String)) : List (String × String) :=
  hs.foldl (fun acc kv => setKey acc kv.1 kv.2) []

/-- The message conversion performed by consumeMessages for each raw
message received from the partition consumer. -/
def convertMessage (m : RawMessage) : Message :=
  ⟨m.Topic, m.Partition, m.Offset, m.Timestamp, m.Key,
   formatMessageValue m.Value, convertHeaders m.Headers⟩

end MessageManager

/-! ## Pump trace semantics (consumeMessages)

The pump goroutine is a loop selecting over the upstream message channel,
the upstream error channel and the session's stop channel; a forwarded
message or error is sent through an inner select that aborts on the stop
channel.  We model one loop iteration as one trace event recording which
ready select case the scheduler fired; an event is admissible only when
that case really is ready in the current channel state.  The output
channels are the sarama-backed buffered channels of capacity 100 and 10;
no reader is modelled, so buffer occupancy only grows. -/

/-- Capacity of the session's message channel. -/
def msgChanCap : Nat := 100

/-- Capacity of the session's error channel. -/
def errChanCap : Nat := 10

/-- State of a running pump: the two output buffers and whether the stop
channel has been closed. -/
structure PumpState where
  msgBuf : List Message
  errBuf : List String
  stopClosed : Bool
deriving DecidableEq, Repr

/-- One select event of the pump loop.  The sent flag of a forwarding
event records which branch of the inner send-or-stop select fired. -/
inductive PumpEvent where
  | upMsgNil : PumpEvent
  | upMsg (m : RawMessage) (sent : Bool) : PumpEvent
  | upErrNil : PumpEvent
  | upErr (e : String) (sent : Bool) : PumpEvent
  | stopSig : PumpEvent
deriving DecidableEq, Repr

/-- Readiness of an event in a pump state: a send requires buffer room, an
abort or a stop-case selection requires the stop channel to be closed. -/
def eventOK (st : PumpState) : PumpEvent → Bool
  | PumpEvent.upMsgNil => true
  | PumpEvent.upMsg _ true => st.msgBuf.length < msgChanCap
  | PumpEvent.upMsg _ false => st.stopClosed
  | PumpEvent.upErrNil => true
  | PumpEvent.upErr _ true => st.errBuf.length < errChanCap
  | PumpEvent.upErr _ false => st.stopClosed
  | PumpEvent.stopSig => st.stopClosed

/-- Result of one loop iteration: continue with a new state, or return. -/
inductive StepRes where
  | cont (st : PumpState) : StepRes
  | halt (st : PumpState) : StepRes
deriving DecidableEq, Repr

/-- One iteration of the consumeMessages loop. -/
def pumpStep (st : PumpState) : PumpEvent → StepRes
  | PumpEvent.upMsgNil => StepRes.halt st
  | PumpEvent.upMsg m true =>
      StepRes.cont { st with msgBuf := st.msgBuf ++ [MessageManager.convertMessage m] }
  | PumpEvent.upMsg _ false => StepRes.halt st
  | PumpEvent.upErrNil => StepRes.halt st
  | PumpEvent.upErr e true =>
      StepRes.cont { st with errBuf := st.errBuf ++ [e] }
  | PumpEvent.upErr _ false => StepRes.halt st
  | PumpEvent.stopSig => StepRes.halt st

/-- A trace is admissible when every fired event was ready when it fired;
events after a return are ignored. -/
def validTrace (st : PumpState) : List PumpEvent → Bool
  | [] => true
  | e :: rest =>
      eventOK st e &&
      (match pumpStep st e with
       | StepRes.halt _ => true
       | StepRes.cont st2 => validTrace st2 rest)

/-- Observable outcome of a pump run.  The close counters and the handle
flag record the deferred cleanup block, which runs exactly when the loop
returns. -/
structure PumpRun where
  final : PumpState
  msgChClosedCount : Nat
  errChClosedCount : Nat
  consumerClosed : Bool
  terminated : Bool
deriving DecidableEq, Repr

/-- The registry effect of the deferred block of consumeMessages: delete
the session's key under the registry lock. -/
def pumpFinish (mm : MMState) (sess : ConsumerSession) : MMState :=
  { mm with
    consumers := eraseKey mm.consumers (MessageManager.sessionKey sess.Topic sess.GroupID sess.Partition) }

/-- Run the pump loop over a trace together with its registry effect: the
deferred block also removes the session from the manager's map. -/
def runConsumeMessages (mm : MMState) (sess : ConsumerSession) (st : PumpState) :
    List PumpEvent → PumpRun × MMState
  | [] => (⟨st, 0, 0, false, false⟩, mm)
  | e :: rest =>
      match pumpStep st e with
      | StepRes.halt st2 => (⟨st2, 1, 1, true, true⟩, pumpFinish mm sess)
      | StepRes.cont st2 => runConsumeMessages mm sess st2 rest

/-- The mutable controller state of InteractiveMode. -/
structure InteractiveMode where
  content : List String
  statusMsg : String
  inCommandMode : Bool
  inSearchMode : Bool
  currentCmd : String
  searchPattern : String
  scrollOffset : Int
  visibleLines : Int
deriving DecidableEq, Repr

namespace InteractiveMode

/-- scrollDown: one line down unless already at the last possible line. -/
def scrollDown (im : InteractiveMode) : InteractiveMode :=
  if im.scrollOffset < (im.content.length : Int) - im.visibleLines then
    { im with scrollOffset := im.scrollOffset + 1 }
  else im

/-- scrollUp: one line up unless at the top. -/
def scrollUp (im : InteractiveMode) : InteractiveMode :=
  if im.scrollOffset > 0 then { im with scrollOffset := im.scrollOffset - 1 } else im

/-- scrollPageDown: advance one screenful, clamping at the last content
line (not at the last full-page offset). -/
def scrollPageDown (im : InteractiveMode) : InteractiveMode :=
  let o1 := im.scrollOffset + im.visibleLines
  if o1 ≥ (im.content.length : Int) then
    let o2 := (im.content.length : Int) - 1
    { im with scrollOffset := if o2 < 0 then 0 else o2 }
  else { im with scrollOffset := o1 }

/-- scrollPageUp: retreat one screenful, clamping at zero. -/
def scrollPageUp (im : InteractiveMode) : InteractiveMode :=
  let o1 := im.scrollOffset - im.visibleLines
  { im with scrollOffset := if o1 < 0 then 0 else o1 }

/-- scrollToTop. -/
def scrollToTop (im : InteractiveMode) : InteractiveMode :=
  { im with scrollOffset := 0 }

/-- scrollToBottom: last full-page offset, clamping at zero. -/
def scrollToBottom (im : InteractiveMode) : InteractiveMode :=
  let o1 := (im.content.length : Int) - im.visibleLines
  { im with scrollOffset := if o1 < 0 then 0 else o1 }

end InteractiveMode

/-- The six normal-mode scroll keys. -/
inductive ScrollOp where
  | j : ScrollOp
  | k : ScrollOp
  | f : ScrollOp
  | b : ScrollOp
  | g : ScrollOp
  | G : ScrollOp
deriving DecidableEq, Repr

/-- Dispatch of one scroll key in handleNormalMode. -/
def applyScrollOp (im : InteractiveMode) : ScrollOp → InteractiveMode
  | ScrollOp.j => im.scrollDown
  | ScrollOp.k => im.scrollUp
  | ScrollOp.f => im.scrollPageDown
  | ScrollOp.b => im.scrollPageUp
  | ScrollOp.g => im.scrollToTop
  | ScrollOp.G => im.scrollToBottom

/-- A sequence of scroll keys. -/
def applyScrollOps (im : InteractiveMode) (ops : List ScrollOp) : InteractiveMode :=
  ops.foldl applyScrollOp im

/-- The scroll range asserted by the specification. -/
def specScrollRange (im : InteractiveMode) : Prop :=
  0 ≤ im.scrollOffset ∧
    im.scrollOffset ≤ max 0 ((im.content.length : Int) - im.visibleLines)

instance (im : InteractiveMode) : Decidable (specScrollRange im) := by
  unfold specScrollRange; infer_instance

/-- The scroll range the code actually maintains. -/
def codeScrollRange (im : InteractiveMode) : Prop :=
  0 ≤ im.scrollOffset ∧
    im.scrollOffset ≤ max 0 ((im.content.length : Int) - 1)

instance (im : InteractiveMode) : Decidable (codeScrollRange im) := by
  unfold codeScrollRange; infer_instance

/-! ## Search mode -/

/-- Character-list prefix test. -/
def isPrefixChars : List Char → List Char → Bool
  | [], _ => true
  | _ :: _, [] => false
  | a :: as, b :: bs => a = b && isPrefixChars as bs

/-- Character-list substring test (strings.Contains). -/
def isSubstrChars (pat : List Char) : List Char → Bool
  | [] => isPrefixChars pat []
  | c :: rest => isPrefixChars pat (c :: rest) || isSubstrChars pat rest

/-- Lower-case one character (strings.ToLower on the ASCII range). -/
def lowerChar (c : Char) : Char :=
  if 'A' ≤ c ∧ c ≤ 'Z' then Char.ofNat (c.toNat + 32) else c

/-- Case-insensitive line match:
strings.Contains(strings.ToLower(line), strings.ToLower(pattern)). -/
def matchesCI (line pat : String) : Bool :=
  isSubstrChars (pat.data.map lowerChar) (line.data.map lowerChar)

/-- Index of the first matching content line, scanning from the top. -/
def firstMatchIdx (pat : String) : List String → Option Nat
  | [] => none
  | l :: rest =>
      if matchesCI l pat then some 0
      else (firstMatchIdx pat rest).map (· + 1)

namespace InteractiveMode

/-- Modelled from the spec: the repository's search-functional interactive
variant is not among the provided sources (the included raw-terminal file
leaves performSearch as a stub, and the design notes state that the spec
follows the search-functional variant).  Per the spec: a case-insensitive
substring scan of content from the top; on the first matching line,
scrollOffset jumps to two lines before it, clamped to 0, and statusMsg
reports the match; with no match, statusMsg reports not-found. -/
def performSearch (im : InteractiveMode) (pattern : String) : InteractiveMode :=
  match firstMatchIdx pattern im.content with
  | some idx =>
      let o := (idx : Int) - 2
      { im with
        scrollOffset := if o < 0 then 0 else o,
        statusMsg := "Found: " ++ pattern }
  | none => { im with statusMsg := "Pattern not found: " ++ pattern }

/-- handleSearchMode: the search-mode key handler.  Returns the next state
and the quit flag. -/
def handleSearchMode (im : InteractiveMode) (c : Char) : InteractiveMode × Bool :=
  if c = '\r' ∨ c = '\n' then
    let pattern := im.searchPattern
    let im2 := { im with inSearchMode := false, searchPattern := "" }
    if pattern ≠ "" then (im2.performSearch pattern, false) else (im2, false)
  else if c = '\x1b' then
    ({ im with inSearchMode := false, searchPattern := "", statusMsg := "Search cancelled" }, false)
  else if c = '\x7f' ∨ c = '\x08' then
    (if im.searchPattern.length > 0 then
       { im with searchPattern := im.searchPattern.dropRight 1 }
     else im, false)
  else if 32 ≤ c.toNat ∧ c.toNat ≤ 126 then
    ({ im with searchPattern := im.searchPattern.push c }, false)
  else (im, false)

end InteractiveMode

/-! ## Concrete instances used by the witnesses -/

/-- A connected client whose partition consumer always opens. -/
def envOk : ClientEnv := ⟨true, fun _ _ _ => Except.ok 7⟩

/-- A client that does not report itself connected. -/
def envDown : ClientEnv := ⟨false, fun _ _ _ => Except.ok 7⟩

/-- A connected client whose partition consumer fails to open. -/
def envBroken : ClientEnv := ⟨true, fun _ _ _ => Except.error "broker down"⟩

/-- The empty manager state. -/
def st0 : MMState := ⟨[], 0, [], []⟩

/-- The consume request of the specification's scenario. -/
def reqOrders : ConsumeRequest := ⟨"orders", "grp1", 0, true⟩

/-- A registered session for the scenario request. -/
def sessOrders : ConsumerSession := ⟨7, "orders", 0, "grp1", 0, 1, 2, true⟩

/-- A manager state with the scenario session registered. -/
def stOrders : MMState := ⟨[("orders-grp1-0", sessOrders)], 3, ["orders-grp1-0"], []⟩

/-- Request with topic a-b and group c. -/
def reqAB : ConsumeRequest := ⟨"a-b", "c", 1, true⟩

/-- Request with topic a and group b-c. -/
def reqBC : ConsumeRequest := ⟨"a", "b-c", 1, true⟩

/-- State after starting the a-b/c/1 session from the empty state. -/
def stAB : MMState := (MessageManager.StartConsumer envOk st0 reqAB).2

/-- A pump state whose stop channel has been closed. -/
def pumpStopped : PumpState := ⟨[], [], true⟩

/-- Controller state with ten content lines, three visible, offset 7. -/
def imBase : InteractiveMode :=
  ⟨List.replicate 10 "", "", false, false, "", "", 7, 3⟩

/-- Controller state in search mode with a pending pattern. -/
def imSearch : InteractiveMode :=
  ⟨["a0", "a1", "a2", "Needle X", "a4"], "", false, true, "", "needle x", 0, 6⟩

/-! ## Helper lemmas -/

theorem lookupKey_eraseKey_self {α : Type} :
    ∀ (l : List (String × α)) (key : String), lookupKey (eraseKey l key) key = none := by
  intro l key
  induction l with
  | nil => rfl
  | cons p rest ih =>
      obtain ⟨k, w⟩ := p
      by_cases hk : k = key
      · simpa [eraseKey, hk] using ih
      · simpa [eraseKey, hk, lookupKey] using ih

theorem lookupKey_mem {α : Type} :
    ∀ (l : List (String × α)) (key : String) (v : α),
      lookupKey l key = some v → (key, v) ∈ l := by
  intro l
  induction l with
  | nil => intro key v h; simp [lookupKey] at h
  | cons p rest ih =>
      intro key v h
      obtain ⟨k, w⟩ := p
      by_cases hk : k = key
      · subst hk
        simp [lookupKey] at h
        subst h
        exact List.mem_cons_self _ _
      · simp [lookupKey, hk] at h
        exact List.mem_cons_of_mem _ (ih key v h)

/-- One scroll key preserves the code's scroll range and touches neither
the content nor the visible-line count. -/
theorem applyScrollOp_keeps (im : InteractiveMode) (op : ScrollOp)
    (hv : 1 ≤ im.visibleLines) (h : codeScrollRange im) :
    codeScrollRange (applyScrollOp im op) ∧
    (applyScrollOp im op).visibleLines = im.visibleLines := by
  obtain ⟨h1, h2⟩ := h
  cases op <;>
    simp only [applyScrollOp, InteractiveMode.scrollDown, InteractiveMode.scrollUp,
      InteractiveMode.scrollPageDown, InteractiveMode.scrollPageUp,
      InteractiveMode.scrollToTop, InteractiveMode.scrollToBottom] <;>
    (try split_ifs) <;>
    refine ⟨⟨?_, ?_⟩, ?_⟩ <;> (try dsimp only) <;> first | trivial | omega

theorem scroll_ops_aux (ops : List ScrollOp) :
    ∀ im : InteractiveMode, 1 ≤ im.visibleLines → codeScrollRange im →
      codeScrollRange (applyScrollOps im ops) := by
  induction ops with
  | nil => intro im _ h; simpa [applyScrollOps] using h
  | cons op rest ih =>
      intro im hv h
      have step := applyScrollOp_keeps im op hv h
      have hrw : applyScrollOps im (op :: rest) = applyScrollOps (applyScrollOp im op) rest := rfl
      rw [hrw]
      exact ih _ (by rw [step.2]; exact hv) step.1

theorem startConsumer_with_existing (env : ClientEnv) (st : MMState) (req : ConsumeRequest)
    (s : ConsumerSession)
    (hc : env.connected = true)
    (hl : lookupKey st.consumers (MessageManager.sessionKey req.Topic req.GroupID req.Partition)
            = some s) :
    MessageManager.StartConsumer env st req = (Except.ok (s.Messages, s.Errors), st) := by
  unfold MessageManager.StartConsumer
  simp [hc, hl]

theorem startConsumer_ok_state (env : ClientEnv) (st : MMState) (req : ConsumeRequest)
    (m e : Nat) (st1 : MMState)
    (h : MessageManager.StartConsumer env st req = (Except.ok (m, e), st1)) :
    env.connected = true ∧
    ∃ s : ConsumerSession,
      lookupKey st1.consumers (MessageManager.sessionKey req.Topic req.GroupID req.Partition)
          = some s ∧
      s.Messages = m ∧ s.Errors = e := by
  unfold MessageManager.StartConsumer at h
  by_cases hc : env.connected
  · refine ⟨hc, ?_⟩
    simp only [hc, Bool.not_true, Bool.false_eq_true, if_false] at h
    cases hl : lookupKey st.consumers (MessageManager.sessionKey req.Topic req.GroupID req.Partition) with
    | some s =>
        rw [hl] at h
        simp only [Prod.mk.injEq, Except.ok.injEq] at h
        obtain ⟨⟨hm, he⟩, hst⟩ := h
        exact ⟨s, by rw [← hst]; exact hl, hm, he⟩
    | none =>
        rw [hl] at h
        cases hcp : env.consumePartition req.Topic req.Partition
            (if req.FromBeginning then OffsetOldest else OffsetNewest) with
        | error c => rw [hcp] at h; simp at h
        | ok hd =>
            rw [hcp] at h
            simp only [Prod.mk.injEq, Except.ok.injEq] at h
            obtain ⟨⟨hm, he⟩, hst⟩ := h
            refine ⟨⟨hd, req.Topic, req.Partition, req.GroupID,
                     st.nextId, st.nextId + 1, st.nextId + 2, req.FromBeginning⟩,
                    ?_, hm, he⟩
            rw [← hst]
            simp [lookupKey]
  · simp [hc] at h

/-! ## Claim theorems -/

/-- Claim C1: while a session for a key is active, a second StartConsumer
with the same key returns the same channel pair as the first call and
leaves the whole manager state unchanged, so no second session is
registered and no second pump is launched. -/
theorem StartConsumer_idempotent (env : ClientEnv) (st : MMState) (req : ConsumeRequest)
    (m e : Nat) (st1 : MMState)
    (h : MessageManager.StartConsumer env st req = (Except.ok (m, e), st1)) :
    MessageManager.StartConsumer env st1 req = (Except.ok (m, e), st1) := by
  obtain ⟨hc, s, hl, hm, he⟩ := startConsumer_ok_state env st req m e st1 h
  rw [← hm, ← he]
  exact startConsumer_with_existing env st1 req s hc hl

/-- Witness for C1 at a concrete connected client and request. -/
theorem StartConsumer_idempotent_witness :
    MessageManager.StartConsumer envOk stAB reqAB = (Except.ok (0, 1), stAB) :=
  StartConsumer_idempotent envOk st0 reqAB 0 1 stAB (by decide)

/-- Claim C2, counterexample: from offset 7 with ten content lines and
three visible lines (a state inside the specified range), the page-down
key lands on offset 9, outside the specified range. -/
theorem scroll_spec_range_counterexample :
    specScrollRange imBase ∧
    (applyScrollOps imBase [ScrollOp.f]).scrollOffset = 9 ∧
    ¬ specScrollRange (applyScrollOps imBase [ScrollOp.f]) := by
  refine ⟨by decide, by decide, by decide⟩

/-- Claim C2, amended: with at least one visible line, every sequence of
scroll keys started inside the specified range keeps the offset within
zero to the last content line (the code clamps page-down at the last
line, not at the last full-page offset). -/
theorem scroll_ops_within_code_range (im : InteractiveMode) (ops : List ScrollOp)
    (hv : 1 ≤ im.visibleLines) (h0 : specScrollRange im) :
    codeScrollRange (applyScrollOps im ops) := by
  refine scroll_ops_aux ops im hv ?_
  obtain ⟨h1, h2⟩ := h0
  exact ⟨h1, by omega⟩

/-- Witness for the amended C2 at the counterexample state. -/
theorem scroll_ops_within_code_range_witness :
    1 ≤ imBase.visibleLines ∧ specScrollRange imBase ∧
    codeScrollRange (applyScrollOps imBase [ScrollOp.f]) :=
  ⟨by decide, by decide, scroll_ops_within_code_range imBase [ScrollOp.f] (by decide) (by decide)⟩

/-- Claim C5: StopConsumer on a key with no registered session reports the
consumer as not found and returns the state unchanged. -/
theorem StopConsumer_unknown_key (st : MMState) (topic groupID : String) (partition : Int)
    (h : lookupKey st.consumers (MessageManager.sessionKey topic groupID partition) = none) :
    MessageManager.StopConsumer st topic groupID partition
      = (Except.error "consumer not found", st) := by
  unfold MessageManager.StopConsumer
  rw [h]

/-- Witness for C5 on the empty registry. -/
theorem StopConsumer_unknown_key_witness :
    MessageManager.StopConsumer st0 "orders" "grp1" 0
      = (Except.error "consumer not found", st0) :=
  StopConsumer_unknown_key st0 "orders" "grp1" 0 (by decide)

/-- Claim C6: StartConsumer fails on a disconnected client with the
not-connected error, and when opening the partition consumer fails the
wrapped cause is returned synchronously; in both cases the state is
returned unchanged, so nothing is registered. -/
theorem StartConsumer_failure_paths (env : ClientEnv) (st : MMState) (req : ConsumeRequest) :
    (env.connected = false →
       MessageManager.StartConsumer env st req = (Except.error "client not connected", st)) ∧
    (∀ c : String, env.connected = true →
       lookupKey st.consumers (MessageManager.sessionKey req.Topic req.GroupID req.Partition)
           = none →
       env.consumePartition req.Topic req.Partition
           (if req.FromBeginning then OffsetOldest else OffsetNewest) = Except.error c →
       MessageManager.StartConsumer env st req
         = (Except.error ("failed to create partition consumer: " ++ c), st)) := by
  constructor
  · intro hc
    unfold MessageManager.StartConsumer
    simp [hc]
  · intro c hc hl hcp
    unfold MessageManager.StartConsumer
    simp [hc, hl, hcp]

/-- Witness for C6 on a disconnected client and on a failing facade. -/
theorem StartConsumer_failure_paths_witness :
    MessageManager.StartConsumer envDown st0 reqOrders
      = (Except.error "client not connected", st0) ∧
    MessageManager.StartConsumer envBroken st0 reqOrders
      = (Except.error ("failed to create partition consumer: " ++ "broker down"), st0) :=
  ⟨(StartConsumer_failure_paths envDown st0 reqOrders).1 rfl,
   (StartConsumer_failure_paths envBroken st0 reqOrders).2 "broker down" rfl (by decide) rfl⟩

/-- Claim C4: after a successful StopConsumer, the next StartConsumer with
the same key registers a brand-new session whose message and error channel
identifiers differ from the stopped session's. -/
theorem stop_then_start_fresh_channels (env : ClientEnv) (st : MMState) (req : ConsumeRequest)
    (s : ConsumerSession) (hd : Nat)
    (hwf : st.WF) (hc : env.connected = true)
    (hs : lookupKey st.consumers (MessageManager.sessionKey req.Topic req.GroupID req.Partition)
            = some s)
    (hcp : env.consumePartition req.Topic req.Partition
        (if req.FromBeginning then OffsetOldest else OffsetNewest) = Except.ok hd) :
    (MessageManager.StopConsumer st req.Topic req.GroupID req.Partition).1 = Except.ok () ∧
    (MessageManager.StartConsumer env
        (MessageManager.StopConsumer st req.Topic req.GroupID req.Partition).2 req).1
      = Except.ok (st.nextId, st.nextId + 1) ∧
    lookupKey (MessageManager.StartConsumer env
        (MessageManager.StopConsumer st req.Topic req.GroupID req.Partition).2 req).2.consumers
        (MessageManager.sessionKey req.Topic req.GroupID req.Partition)
      = some ⟨hd, req.Topic, req.Partition, req.GroupID,
              st.nextId, st.nextId + 1, st.nextId + 2, req.FromBeginning⟩ ∧
    st.nextId ≠ s.Messages ∧ st.nextId + 1 ≠ s.Errors := by
  have hb : s.Messages < st.nextId ∧ s.Errors < st.nextId ∧ s.Stop < st.nextId :=
    hwf _ (lookupKey_mem _ _ _ hs)
  have hstop : MessageManager.StopConsumer st req.Topic req.GroupID req.Partition
      = (Except.ok (),
         { st with
           closedStops := s.Stop :: st.closedStops,
           consumers := eraseKey st.consumers
             (MessageManager.sessionKey req.Topic req.GroupID req.Partition) }) := by
    unfold MessageManager.StopConsumer
    rw [hs]
  rw [hstop]
  refine ⟨rfl, ?_, ?_, by omega, by omega⟩ <;>
    simp [MessageManager.StartConsumer, hc, lookupKey_eraseKey_self, hcp, lookupKey]

/-- Witness for C4 on the registered scenario session. -/
theorem stop_then_start_fresh_channels_witness :
    (MessageManager.StopConsumer stOrders "orders" "grp1" 0).1 = Except.ok () ∧
    (MessageManager.StartConsumer envOk
        (MessageManager.StopConsumer stOrders "orders" "grp1" 0).2 reqOrders).1
      = Except.ok (3, 4) ∧
    lookupKey (MessageManager.StartConsumer envOk
        (MessageManager.StopConsumer stOrders "orders" "grp1" 0).2 reqOrders).2.consumers
        (MessageManager.sessionKey "orders" "grp1" 0)
      = some ⟨7, "orders", 0, "grp1", 3, 4, 5, true⟩ ∧
    (3 : Nat) ≠ sessOrders.Messages ∧ (4 : Nat) ≠ sessOrders.Errors :=
  stop_then_start_fresh_channels envOk stOrders reqOrders sessOrders 7
    (by decide) rfl (by decide) rfl

theorem runConsume_cons_cont (mm : MMState) (sess : ConsumerSession) (st st2 : PumpState)
    (ev : PumpEvent) (rest : List PumpEvent) (hstep : pumpStep st ev = StepRes.cont st2) :
    runConsumeMessages mm sess st (ev :: rest) = runConsumeMessages mm sess st2 rest := by
  simp [runConsumeMessages, hstep]

/-- Claim C3: whenever the pump loop returns, the deferred block closes
both output channels exactly once, closes the partition-consumer handle,
and the session's key is no longer registered. -/
theorem pump_shutdown_closes_and_deregisters :
    ∀ (tr : List PumpEvent) (mm : MMState) (sess : ConsumerSession) (st : PumpState),
      validTrace st tr = true →
      (runConsumeMessages mm sess st tr).1.terminated = true →
      (runConsumeMessages mm sess st tr).1.msgChClosedCount = 1 ∧
      (runConsumeMessages mm sess st tr).1.errChClosedCount = 1 ∧
      (runConsumeMessages mm sess st tr).1.consumerClosed = true ∧
      lookupKey (runConsumeMessages mm sess st tr).2.consumers
        (MessageManager.sessionKey sess.Topic sess.GroupID sess.Partition) = none := by
  intro tr
  induction tr with
  | nil =>
      intro mm sess st _ ht
      simp [runConsumeMessages] at ht
  | cons ev rest ih =>
      intro mm sess st hv ht
      cases hstep : pumpStep st ev with
      | halt st2 =>
          simp [runConsumeMessages, hstep, pumpFinish, lookupKey_eraseKey_self]
      | cont st2 =>
          have hv2 : validTrace st2 rest = true := by
            simp [validTrace, hstep] at hv
            exact hv.2
          rw [runConsume_cons_cont mm sess st st2 ev rest hstep] at ht ⊢
          exact ih mm sess st2 hv2 ht

/-- Witness for C3: one stop-signal event terminates a stopped pump and
deregisters the scenario session. -/
theorem pump_shutdown_witness :
    (runConsumeMessages stOrders sessOrders pumpStopped [PumpEvent.stopSig]).1.msgChClosedCount = 1 ∧
    (runConsumeMessages stOrders sessOrders pumpStopped [PumpEvent.stopSig]).1.errChClosedCount = 1 ∧
    (runConsumeMessages stOrders sessOrders pumpStopped [PumpEvent.stopSig]).1.consumerClosed = true ∧
    lookupKey (runConsumeMessages stOrders sessOrders pumpStopped [PumpEvent.stopSig]).2.consumers
      (MessageManager.sessionKey "orders" "grp1" 0) = none :=
  pump_shutdown_closes_and_deregisters [PumpEvent.stopSig] stOrders sessOrders pumpStopped
    (by decide) (by decide)

theorem firstMatchIdx_of_least (pat : String) :
    ∀ (ls : List String) (i : Nat) (line : String),
      ls[i]? = some line → matchesCI line pat = true →
      (∀ j lj, j < i → ls[j]? = some lj → matchesCI lj pat = false) →
      firstMatchIdx pat ls = some i := by
  intro ls
  induction ls with
  | nil => intro i line hi _ _; simp at hi
  | cons l rest ih =>
      intro i line hi hm hfirst
      cases i with
      | zero =>
          simp at hi
          subst hi
          simp [firstMatchIdx, hm]
      | succ n =>
          have h0 : matchesCI l pat = false := hfirst 0 l (Nat.succ_pos n) (by simp)
          have hr := ih n line (by simpa using hi) hm
            (fun j lj hj hg => hfirst (j + 1) lj (by omega) (by simpa using hg))
          simp [firstMatchIdx, h0, hr]

theorem firstMatchIdx_of_no_match (pat : String) :
    ∀ ls : List String, (∀ l ∈ ls, matchesCI l pat = false) →
      firstMatchIdx pat ls = none := by
  intro ls
  induction ls with
  | nil => intro _; rfl
  | cons l rest ih =>
      intro h
      have h0 : matchesCI l pat = false := h l (List.mem_cons_self _ _)
      simp [firstMatchIdx, h0, ih (fun x hx => h x (List.mem_cons_of_mem _ hx))]

/-- Claim C7: in search mode, Enter on a non-empty pattern scans the
content case-insensitively from the top; on the first matching line the
offset jumps to two lines before it, clamped to zero, and the status
message reports the match; with no matching line the status message
reports not-found and the offset is unchanged.  The scan itself is the
spec-modelled performSearch; the Enter dispatch is the handler from the
sources. -/
theorem search_enter_jumps_to_first_match (im : InteractiveMode)
    (hne : im.searchPattern ≠ "") :
    (∀ (i : Nat) (line : String), im.content[i]? = some line →
       matchesCI line im.searchPattern = true →
       (∀ j lj, j < i → im.content[j]? = some lj → matchesCI lj im.searchPattern = false) →
       (im.handleSearchMode '\r').1.scrollOffset
           = (if ((i : Int) - 2) < 0 then 0 else (i : Int) - 2) ∧
       (im.handleSearchMode '\r').1.statusMsg = "Found: " ++ im.searchPattern) ∧
    ((∀ l ∈ im.content, matchesCI l im.searchPattern = false) →
       (im.handleSearchMode '\r').1.statusMsg = "Pattern not found: " ++ im.searchPattern ∧
       (im.handleSearchMode '\r').1.scrollOffset = im.scrollOffset) ∧
    (im.handleSearchMode '\r').1.inSearchMode = false ∧
    (im.handleSearchMode '\r').1.searchPattern = "" := by
  have henter : im.handleSearchMode '\r'
      = (InteractiveMode.performSearch
          { im with inSearchMode := false, searchPattern := "" } im.searchPattern, false) := by
    simp [InteractiveMode.handleSearchMode, hne]
  rw [henter]
  refine ⟨?_, ?_, ?_, ?_⟩
  · intro i line hi hm hfirst
    have hidx : firstMatchIdx im.searchPattern im.content = some i :=
      firstMatchIdx_of_least im.searchPattern im.content i line hi hm hfirst
    simp [InteractiveMode.performSearch, hidx]
  · intro hall
    have hidx : firstMatchIdx im.searchPattern im.content = none :=
      firstMatchIdx_of_no_match im.searchPattern im.content hall
    simp [InteractiveMode.performSearch, hidx]
  · cases hidx : firstMatchIdx im.searchPattern im.content <;>
      simp [InteractiveMode.performSearch, hidx]
  · cases hidx : firstMatchIdx im.searchPattern im.content <;>
      simp [InteractiveMode.performSearch, hidx]

/-- Witness for C7: the needle sits on line index 3, so the offset jumps
to line 1 and the match is reported. -/
theorem search_enter_witness :
    (imSearch.handleSearchMode '\r').1.scrollOffset = 1 ∧
    (imSearch.handleSearchMode '\r').1.statusMsg = "Found: needle x" := by
  have h := (search_enter_jumps_to_first_match imSearch (by decide)).1 3 "Needle X"
    (by decide) (by decide)
    (by
      intro j lj hj hg
      interval_cases j <;> simp [imSearch] at hg <;> subst hg <;> decide)
  simpa using h

/-- Claim C10: the registry key conflates distinct key tuples.  With the
a-b/c/1 session active, starting a/b-c/1 returns the first session's
channels and changes nothing, and stopping a/b-c/1 removes the first
session. -/
theorem conflated_session_keys :
    MessageManager.sessionKey "a-b" "c" 1 = MessageManager.sessionKey "a" "b-c" 1 ∧
    reqAB ≠ reqBC ∧
    (MessageManager.StartConsumer envOk st0 reqAB).1 = Except.ok (0, 1) ∧
    MessageManager.StartConsumer envOk stAB reqBC = (Except.ok (0, 1), stAB) ∧
    (MessageManager.StopConsumer stAB "a" "b-c" 1).1 = Except.ok () ∧
    lookupKey (MessageManager.StopConsumer stAB "a" "b-c" 1).2.consumers
      (MessageManager.sessionKey "a-b" "c" 1) = none := by
  refine ⟨by decide, by decide, by decide, by decide, by decide, by decide⟩

end Kim
